import Mathlib

/-!
Shallow embedding of the connection orchestrator in src/lib/Socket/socket.js
(the makeSocket closure) and proofs about its behaviour.

Conventions of the embedding:
* machine bytes are `List Nat` (each entry one octet);
* the asynchronous event-emitter transport is modelled by an explicit list of
  registered listeners (event name paired with a handler identity) together
  with an ordered list of the events that fire before the relevant deadline;
  an exhausted event list means the deadline elapsed first;
* outcomes of external collaborators (the transport write, the protobuf
  decoder, the noise engine) are passed in as explicit arguments, so each
  orchestrator operation is a pure function from its inputs and the
  collaborator outcomes to a trace of performed actions plus a result.
-/

namespace Bail

/-- Bytes on the wire: a list of octets. -/
abbrev Bytes := List Nat

/-- The error kinds surfaced by the orchestrator (Boom errors in the source). -/
inductive SockError where
  /-- Boom "Connection Closed" with DisconnectReason.connectionClosed. -/
  | connectionClosed
  /-- Boom "Timed Out" from the deadline race. -/
  | timedOut
  /-- An underlying transport error, carried through a reject callback. -/
  | transportError (code : Nat)
  /-- A malformed or cryptographically invalid handshake message. -/
  | handshakeFailure (code : Nat)
  /-- ProtocolError raised by the codec error-assertion, carrying details. -/
  | protocolError (tag : String) (attrs : List (String × String))
  deriving Repr, DecidableEq

/-- A binary protocol node: tag, attributes, children (WABinary tree shape). -/
inductive BinaryNode where
  | node (tag : String) (attrs : List (String × String)) (children : List BinaryNode)
  deriving Repr

/-- The tag of a binary node. -/
def BinaryNode.tag : BinaryNode → String
  | .node t _ _ => t

/-- The attribute list of a binary node. -/
def BinaryNode.attrs : BinaryNode → List (String × String)
  | .node _ a _ => a

/-- The children of a binary node. -/
def BinaryNode.children : BinaryNode → List BinaryNode
  | .node _ _ c => c

/-- Look up an attribute by key (JS `node.attrs[k]`, absent keys give none). -/
def getAttr (n : BinaryNode) (k : String) : Option String :=
  (n.attrs.find? (fun p => p.1 == k)).map (fun p => p.2)

/-- JS truthiness of an attribute value: absent and empty string are falsy. -/
def truthyAttr : Option String → Bool
  | some s => !(s == "")
  | none => false

/-- JS in-place assignment `node.attrs[k] = v`: overwrite the binding when the
key is present, append it otherwise. -/
def setAttr (n : BinaryNode) (k v : String) : BinaryNode :=
  .node n.tag
    (if n.attrs.any (fun p => p.1 == k) then
      n.attrs.map (fun p => if p.1 == k then (k, v) else p)
    else n.attrs ++ [(k, v)])
    n.children

/-! ### The event-emitter transport -/

/-- Names of events on the transport: the built-in frame/close/error events
plus the dynamically named per-tag events `TAG:<id>`. -/
inductive EvName where
  | frame
  | close
  | error
  | tagEv (id : String)
  deriving Repr, DecidableEq

/-- Identity of a handler function closed over by one wait operation. -/
inductive Handler where
  | onRecv
  | onErr
  | onOpen
  | onClose
  | other (n : Nat)
  deriving Repr, DecidableEq

/-- The listener table of the emitter: registration order is kept. -/
abbrev Listeners := List (EvName × Handler)

/-- `ws.on(e, h)`: append a registration. -/
def wsOn (l : Listeners) (e : EvName) (h : Handler) : Listeners :=
  l ++ [(e, h)]

/-- `ws.off(e, h)`: remove at most one matching registration (Node.js
removeListener semantics); removing an absent listener is a no-op. -/
def wsOff (l : Listeners) (e : EvName) (h : Handler) : Listeners :=
  match l with
  | [] => []
  | p :: rest => if p = (e, h) then rest else p :: wsOff rest e h

/-- One event occurrence on the transport, as seen by waiting operations. -/
inductive SockEvent where
  /-- A raw frame arrived (the "frame" event). -/
  | frameEv (b : Bytes)
  /-- The transport closed (the "close" event). -/
  | closeEv
  /-- The transport errored (the "error" event). -/
  | errorEv (code : Nat)
  /-- A decoded response was dispatched on the `TAG:<id>` pseudo-event. -/
  | taggedEv (id : String) (r : BinaryNode)
  deriving Repr

/-- Result slot of a tag wait. -/
inductive WaitOutcome where
  | resolved (r : BinaryNode)
  | rejected (e : SockError)
  | timedOut
  deriving Repr

/-! ### waitForMessage (socket.js lines 150-172) -/

/-- Effect of one event on a pending waitForMessage whose listener table is
`l`: a handler only fires if it is actually registered. The close handler
rejects with the Connection Closed fallback, the error handler rejects with
the underlying error (source lines 157-161). -/
def fireWait (msgId : String) (l : Listeners) : SockEvent → Option WaitOutcome
  | .taggedEv id r =>
    if (EvName.tagEv id, Handler.onRecv) ∈ l ∧ id = msgId then some (.resolved r)
    else none
  | .closeEv =>
    if (EvName.close, Handler.onErr) ∈ l then some (.rejected .connectionClosed)
    else none
  | .errorEv c =>
    if (EvName.error, Handler.onErr) ∈ l then some (.rejected (.transportError c))
    else none
  | .frameEv _ => none

/-- Settle a waitForMessage against the events that occur before its
deadline; if none of them fires a registered handler the deadline elapses
(the promiseTimeout race rejects with Timed Out). -/
def waitOutcome (msgId : String) (l : Listeners) : List SockEvent → WaitOutcome
  | [] => .timedOut
  | e :: rest =>
    match fireWait msgId l e with
    | some o => o
    | none => waitOutcome msgId l rest

/-- Shallow embedding of `waitForMessage(msgId, timeoutMs)` (source lines
150-172). Starting from listener table `l0` it performs, verbatim from the
source registration block (lines 163-165):
`ws.on(TAG:msgId, onRecv); ws.on(close, onErr); ws.off(error, onErr)`,
then settles against `events` (the events arriving before the deadline), and
finally runs the cleanup block (lines 168-170):
`ws.off(TAG:msgId, onRecv); ws.off(close, onErr); ws.off(error, onErr)`.
Returns (table during the wait, outcome, table after cleanup). -/
def waitForMessage (msgId : String) (l0 : Listeners) (events : List SockEvent) :
    Listeners × WaitOutcome × Listeners :=
  let registered := wsOff (wsOn (wsOn l0 (.tagEv msgId) .onRecv) .close .onErr) .error .onErr
  let outcome := waitOutcome msgId registered events
  let after := wsOff (wsOff (wsOff registered (.tagEv msgId) .onRecv) .close .onErr) .error .onErr
  (registered, outcome, after)

/-! ### Observable actions of the orchestrator operations -/

/-- One observable step performed by an orchestrator operation, in program
order. -/
inductive Action where
  | register (e : EvName) (h : Handler)
  | deregister (e : EvName) (h : Handler)
  | startTimer (ms : Nat)
  | sendRaw (b : Bytes)
  deriving Repr, DecidableEq

/-- Modelled from the spec: the timeout-bounded waiter utility (promiseTimeout
in Utils, which is not under src/). Per the spec it "races an operation
against a deadline". A zero deadline is JS-falsy and disables the race;
otherwise an operation that takes at least the deadline loses the race and
the result is the Timed Out rejection, else the operation settles with its
own result. -/
def promiseTimeout {α : Type} (ms : Nat) (durationMs : Nat)
    (result : Except SockError α) : Except SockError α :=
  if ms ≠ 0 ∧ ms ≤ durationMs then .error .timedOut else result

/-! ### sendRawMessage (socket.js lines 88-103) -/

/-- Shallow embedding of `sendRawMessage(data)` (source lines 88-103): when
the transport is not open, throw Connection Closed at once (no action is
performed); otherwise frame the bytes through `noise.encodeFrame` and perform
the transport send inside `promiseTimeout(connectTimeoutMs, ...)`. The
outcome of the underlying write is the argument `sendResult` and its duration
`sendDurationMs`. Returns the performed actions and the result. -/
def sendRawMessage (isOpen : Bool) (connectTimeoutMs : Nat)
    (encodeFrame : Bytes → Bytes) (data : Bytes) (sendDurationMs : Nat)
    (sendResult : Except SockError Unit) :
    List Action × Except SockError Unit :=
  if !isOpen then ([], .error .connectionClosed)
  else
    ([Action.sendRaw (encodeFrame data)],
      promiseTimeout connectTimeoutMs sendDurationMs sendResult)

/-! ### awaitNextMessage (socket.js lines 119-147) -/

/-- Settle an awaitNextMessage against the events arriving before its
deadline: the first event whose handler is registered decides the outcome
(frame resolves with the bytes, close rejects with Connection Closed, error
rejects with the underlying error); an exhausted list means the deadline of
the promiseTimeout race elapsed first. -/
def nextMsgOutcome (l : Listeners) : List SockEvent → Except SockError Bytes
  | [] => .error .timedOut
  | e :: rest =>
    match e with
    | .frameEv b =>
      if (EvName.frame, Handler.onOpen) ∈ l then .ok b else nextMsgOutcome l rest
    | .closeEv =>
      if (EvName.close, Handler.onClose) ∈ l then .error .connectionClosed
      else nextMsgOutcome l rest
    | .errorEv c =>
      if (EvName.error, Handler.onClose) ∈ l then .error (.transportError c)
      else nextMsgOutcome l rest
    | .taggedEv _ _ => nextMsgOutcome l rest

/-- Shallow embedding of `awaitNextMessage(sendMsg)` (source lines 119-147):
when the transport is not open, throw Connection Closed at once (nothing is
registered and nothing is sent). Otherwise the promiseTimeout executor
registers the frame, close and error listeners (lines 133-135), then — only
after registration — the optional payload is sent (lines 142-144), the wait
settles against `events`, and the finally block (lines 137-139) removes the
three listeners on every resolution path. Returns the actions in program
order, the outcome, and the listener table after cleanup. -/
def awaitNextMessage (isOpen : Bool) (connectTimeoutMs : Nat)
    (sendMsg : Option Bytes) (l0 : Listeners) (events : List SockEvent) :
    List Action × Except SockError Bytes × Listeners :=
  if !isOpen then ([], .error .connectionClosed, l0)
  else
    let registered := wsOn (wsOn (wsOn l0 .frame .onOpen) .close .onClose) .error .onClose
    let regActs := [Action.register .frame .onOpen, Action.register .close .onClose,
      Action.register .error .onClose, Action.startTimer connectTimeoutMs]
    let sendActs := match sendMsg with
      | some b => [Action.sendRaw b]
      | none => []
    let outcome := nextMsgOutcome registered events
    let after := wsOff (wsOff (wsOff registered .frame .onOpen) .close .onClose) .error .onClose
    let deregActs := [Action.deregister .frame .onOpen, Action.deregister .close .onClose,
      Action.deregister .error .onClose]
    (regActs ++ sendActs ++ deregActs, outcome, after)

/-! ### query (socket.js lines 175-190) -/

/-- A value resolved by a tag wait: the dispatcher delivers decoded protocol
nodes on `TAG:` events, but the source guards the error-assertion with a
`tag in result` membership test, so a non-node resolution is also
representable. -/
inductive WaitResult where
  | nodeRes (n : BinaryNode)
  | rawRes (b : Bytes)
  deriving Repr

/-- Modelled from the spec: the Node Codec error-assertion
(assertNodeErrorFree in WABinary, which is not under src/): it "fails with
ProtocolError if the node encodes a server-side failure", carrying the error
code/text. A node encodes a server-side failure when it carries a child
tagged "error"; the raised ProtocolError carries that child, tag and
attributes. -/
def assertNodeErrorFree (n : BinaryNode) : Except SockError Unit :=
  match n.children.find? (fun c => c.tag == "error") with
  | some errNode => .error (.protocolError errNode.tag errNode.attrs)
  | none => .ok ()

/-- One observable step performed by query, in program order. -/
inductive QAction where
  | beginWait (msgId : String) (timeoutMs : Nat)
  | sendNodeAct (n : BinaryNode)
  deriving Repr

/-- Shallow embedding of `query(node, timeoutMs)` (source lines 175-190):
when `node.attrs.id` is JS-falsy, assign a freshly generated tag into the
node; take `msgId` from the node; begin `waitForMessage(msgId, timeoutMs)`;
then send the node; then await the result of the wait; and when the resolved
value is a node, run the codec error-assertion on it. `sendOutcome` is the
outcome of `sendNode`, `waitResult` the settled value of the wait. Returns
the actions in program order, the overall result, and the node object as the
caller observes it after the call (JS mutates it in place). -/
def query (node : BinaryNode) (freshTag : String) (timeoutMs : Nat)
    (sendOutcome : Except SockError Unit)
    (waitResult : Except SockError WaitResult) :
    List QAction × Except SockError WaitResult × BinaryNode :=
  let node2 := if truthyAttr (getAttr node "id") then node else setAttr node "id" freshTag
  let msgId := (getAttr node2 "id").getD ""
  let tr := [QAction.beginWait msgId timeoutMs, QAction.sendNodeAct node2]
  match sendOutcome with
  | .error e => (tr, .error e, node2)
  | .ok _ =>
    match waitResult with
    | .error e => (tr, .error e, node2)
    | .ok r =>
      match r with
      | .nodeRes n =>
        match assertNodeErrorFree n with
        | .error e => (tr, .error e, node2)
        | .ok _ => (tr, .ok r, node2)
      | .rawRes b => (tr, .ok (.rawRes b), node2)

/-! ### validateConnection (socket.js lines 193-231) -/

/-- One step of the handshake driver, in program order. -/
inductive HsAction where
  /-- The encoded client-hello was sent concurrently with the next-raw wait
  (`awaitNextMessage(init)`, line 202). -/
  | sendClientHello
  /-- `noise.processHandshake(handshake, creds.noiseKey)` was invoked
  (line 207). -/
  | processHandshakeCall
  /-- The client-finish handshake message was sent as a raw frame
  (lines 222-227). -/
  | sendClientFinish
  /-- `noise.finishInit()` was invoked, committing steady-state encryption
  (line 229). -/
  | finishInitCall
  /-- `startKeepAliveRequest()` was invoked (line 230). -/
  | startKeepAliveCall
  deriving Repr, DecidableEq

/-- Shallow embedding of `validateConnection()` (source lines 193-231). The
inputs are the outcomes of the external collaborators: `awaitResult` is the
settled value of `awaitNextMessage(init)` for the encoded client-hello,
`decodeHandshake` the protobuf HandshakeMessage decoder (which fails on a
malformed server-hello), `processHandshake` the noise engine step deriving
the encrypted static key (which fails on a cryptographically invalid
server-hello), and `sendFinishResult` the outcome of sending the
client-finish frame. Any failure rethrows out of the async function at the
point it occurs; only after all of them succeed are `noise.finishInit()` and
`startKeepAliveRequest()` invoked. Returns the performed engine steps in
program order and the overall result. -/
def validateConnection (awaitResult : Except SockError Bytes)
    (decodeHandshake : Bytes → Except SockError Bytes)
    (processHandshake : Bytes → Except SockError Bytes)
    (sendFinishResult : Except SockError Unit) :
    List HsAction × Except SockError Unit :=
  match awaitResult with
  | .error e => ([.sendClientHello], .error e)
  | .ok raw =>
    match decodeHandshake raw with
    | .error e => ([.sendClientHello], .error e)
    | .ok hs =>
      match processHandshake hs with
      | .error e => ([.sendClientHello, .processHandshakeCall], .error e)
      | .ok _keyEnc =>
        match sendFinishResult with
        | .error e =>
          ([.sendClientHello, .processHandshakeCall, .sendClientFinish], .error e)
        | .ok _ =>
          ([.sendClientHello, .processHandshakeCall, .sendClientFinish,
            .finishInitCall, .startKeepAliveCall], .ok ())

/-! ### startKeepAliveRequest (socket.js lines 247-253) -/

/-- The repeating keep-alive timer as the source starts it: `setInterval`
with a literal period of 30000 milliseconds. -/
structure KeepAliveTimer where
  periodMs : Nat
  deriving Repr, DecidableEq

/-- The argument shapes a sendNode call site can pass: the framing function
takes a single node, but a call site may (incorrectly) pass a plain string. -/
inductive SendNodeArg where
  | nodeArg (n : BinaryNode)
  | strArg (s : String)
  deriving Repr

/-- What one keep-alive tick does, as observable effects. -/
structure TickEffect where
  /-- The first argument the tick passes to sendNode. -/
  callArg : SendNodeArg
  /-- Whether the tick passed a second argument that sendNode ignores
  (sendNode takes a single frame parameter). -/
  extraArgIgnored : Bool
  /-- Whether the tick logs its debug line. -/
  debugLogged : Bool
  /-- Whether a failure of the send is caught and logged by the tick. -/
  errorLogged : Bool
  /-- Whether a failure of the send escapes the tick unhandled. -/
  escalated : Bool

/-- Shallow embedding of `startKeepAliveRequest()` (source lines 248-253):
the interval period is the literal 30000, not the `keepAliveIntervalMs`
configuration value (which the source destructures on line 26 and never
uses). -/
def startKeepAliveRequest : KeepAliveTimer :=
  { periodMs := 30000 }

/-- Shallow embedding of one tick of the keep-alive interval (source lines
249-252): it calls `sendNode` with the string "keepalive" plus a second
argument that the single-parameter sendNode ignores, then logs a debug line;
no catch handler is attached, so a failing send is not logged and escapes
the tick unhandled. -/
def keepAliveTick (sendOutcome : Except SockError Unit) : TickEffect :=
  { callArg := .strArg "keepalive"
    extraArgIgnored := true
    debugLogged := true
    errorLogged := false
    escalated := match sendOutcome with
      | .error _ => true
      | .ok _ => false }

/-! ### generateMessageTag (socket.js lines 78-84) -/

/-- The decimal digits of a natural number, most significant first: exactly
the characters a JS template literal interpolates for a nonnegative
number. -/
def decimalDigits (n : Nat) : List Char :=
  if _h : n < 10 then [Nat.digitChar n]
  else decimalDigits (n / 10) ++ [Nat.digitChar (n % 10)]
termination_by n
decreasing_by exact Nat.div_lt_self (by omega) (by omega)

/-- The decimal rendering of a natural number as a string. -/
def decimalRepr (n : Nat) : String :=
  String.mk (decimalDigits n)

/-- Shallow embedding of `generateMessageTag` (source line 84), given the
captured state: the tag is the session id `uqTagId` followed by the decimal
rendering of the current epoch, and `epoch++` bumps the counter by one. -/
def generateMessageTag (uqTagId : String) (epoch : Nat) : String × Nat :=
  (uqTagId ++ decimalRepr epoch, epoch + 1)

/-- N sequential tag generations starting from a given epoch value. -/
def generateTags (uqTagId : String) : Nat → Nat → List String
  | 0, _ => []
  | n + 1, epoch =>
    (generateMessageTag uqTagId epoch).1
      :: generateTags uqTagId n (generateMessageTag uqTagId epoch).2

/-- The N tags issued by a fresh orchestrator instance: the epoch counter is
initialised to 1 (source line 78). -/
def sessionTags (uqTagId : String) (n : Nat) : List String :=
  generateTags uqTagId n 1

/-! ### Transport selection and URL preparation (socket.js lines 38-55) -/

/-- The base64url alphabet character for a 6-bit value: A-Z, a-z, 0-9, minus,
underscore. -/
def base64urlChar (n : Nat) : Char :=
  if n < 26 then Char.ofNat (65 + n)
  else if n < 52 then Char.ofNat (97 + (n - 26))
  else if n < 62 then Char.ofNat (48 + (n - 52))
  else if n = 62 then Char.ofNat 45
  else Char.ofNat 95

/-- One base64url output group for up to three input octets; a final partial
group emits no padding, as Buffer.toString with base64url does. -/
def base64urlGroup : List Nat → List Char
  | [b0, b1, b2] =>
    [base64urlChar (b0 / 4), base64urlChar (b0 % 4 * 16 + b1 / 16),
     base64urlChar (b1 % 16 * 4 + b2 / 64), base64urlChar (b2 % 64)]
  | [b0, b1] =>
    [base64urlChar (b0 / 4), base64urlChar (b0 % 4 * 16 + b1 / 16),
     base64urlChar (b1 % 16 * 4)]
  | [b0] =>
    [base64urlChar (b0 / 4), base64urlChar (b0 % 4 * 16)]
  | _ => []

/-- base64url encoding of a byte sequence, three octets per group. -/
def base64url : List Nat → List Char
  | b0 :: b1 :: b2 :: rest => base64urlGroup [b0, b1, b2] ++ base64url rest
  | rest => base64urlGroup rest

/-- base64url rendering as a string (Buffer.toString with base64url). -/
def base64urlStr (bytes : List Nat) : String :=
  String.mk (base64url bytes)

/-- The parts of a URL the source touches. -/
structure URLm where
  protocol : String
  host : String
  port : String
  searchParams : List (String × String)
  deriving Repr, DecidableEq

/-- The transport variant constructed (socket.js lines 49-53). -/
inductive TransportKind where
  | supplied
  | mobileSocketClient
  | webSocketClient
  deriving Repr, DecidableEq

/-- Shallow embedding of the URL preparation and transport selection at the
top of makeSocket (source lines 38-55). `mobileEndpoint` and `mobilePort`
stand for the fixed gateway constants MOBILE_ENDPOINT and MOBILE_PORT from
Defaults (not under src/). Line 39 forces mobile mode for a tcp: endpoint;
line 41 rewrites the URL to the fixed gateway only when mobile is set and
the scheme is not already tcp:; lines 45-47 append the routing hint,
base64url-encoded, as the ED query parameter for a non-mobile wss: endpoint
when the credentials carry one; lines 49-53 pick the transport: a supplied
socket verbatim, else the mobile raw-stream client in mobile mode, else the
WebSocket client. Returns the final URL, the effective mobile flag and the
transport kind. -/
def makeSocketTarget (mobileFlag : Bool) (url : URLm)
    (routingInfo : Option (List Nat)) (suppliedSocket : Bool)
    (mobileEndpoint mobilePort : String) : URLm × Bool × TransportKind :=
  let mobile := mobileFlag || url.protocol == "tcp:"
  let url1 := if mobile && !(url.protocol == "tcp:") then
      { protocol := "tcp:", host := mobileEndpoint, port := mobilePort,
        searchParams := [] }
    else url
  let url2 := match routingInfo with
    | some ri =>
      if !mobile && (url1.protocol == "wss:") then
        { url1 with searchParams := url1.searchParams ++ [("ED", base64urlStr ri)] }
      else url1
    | none => url1
  let kind := if suppliedSocket then TransportKind.supplied
    else if mobile then TransportKind.mobileSocketClient
    else TransportKind.webSocketClient
  (url2, mobile, kind)

end Bail

namespace Bail

/-- C1: during a pending waitForMessage starting from an empty listener table,
the error listener is absent from the table (the registration block removes
rather than adds it), so a transport error event settles nothing and the wait
only ends by timeout; cleanup still empties the table. -/
theorem waitForMessage_error_event_ignored :
    (EvName.error, Handler.onErr) ∉ (waitForMessage "abc-1" [] [SockEvent.errorEv 7]).1
    ∧ (waitForMessage "abc-1" [] [SockEvent.errorEv 7]).2.1 = WaitOutcome.timedOut
    ∧ (waitForMessage "abc-1" [] [SockEvent.errorEv 7]).2.2 = [] :=
  ⟨by decide, rfl, rfl⟩

/-- C5: sendRawMessage fails at once with Connection Closed when the
transport is not open and performs no send; otherwise it performs exactly one
transport send of the noise-framed bytes bounded by the connect timeout,
failing with Timed Out when the write does not complete within that bound and
surfacing the write result otherwise. -/
theorem sendRawMessage_spec (ct : Nat) (enc : Bytes → Bytes) (data : Bytes)
    (dur : Nat) (res : Except SockError Unit) :
    sendRawMessage false ct enc data dur res = ([], .error .connectionClosed) ∧
    (sendRawMessage true ct enc data dur res).1 = [Action.sendRaw (enc data)] ∧
    (0 < ct → ct ≤ dur → (sendRawMessage true ct enc data dur res).2 = .error .timedOut) ∧
    (dur < ct → (sendRawMessage true ct enc data dur res).2 = res) := by
  refine ⟨rfl, rfl, ?_, ?_⟩
  · intro h1 h2
    show promiseTimeout ct dur res = .error .timedOut
    unfold promiseTimeout
    rw [if_pos ⟨by omega, h2⟩]
  · intro h
    show promiseTimeout ct dur res = res
    unfold promiseTimeout
    rw [if_neg (by omega)]

/-- Witness for sendRawMessage_spec at concrete inputs: a write of duration
200 against a 100ms bound times out, a write of duration 50 succeeds. -/
theorem sendRawMessage_spec_witness :
    (sendRawMessage true 100 id [1] 200 (Except.ok ())).2 = Except.error SockError.timedOut ∧
    (sendRawMessage true 100 id [1] 50 (Except.ok ())).2 = Except.ok () :=
  ⟨(sendRawMessage_spec 100 id [1] 200 (Except.ok ())).2.2.1 (by decide) (by decide),
   (sendRawMessage_spec 100 id [1] 50 (Except.ok ())).2.2.2 (by decide)⟩

/-- C9: awaitNextMessage has the same open-transport precondition as the send
path: on a transport that is not open it fails at once with Connection
Closed, performing no action (no listener registration, no send) and leaving
the listener table untouched. -/
theorem awaitNextMessage_requires_open (ct : Nat) (sendMsg : Option Bytes)
    (l0 : Listeners) (events : List SockEvent) :
    awaitNextMessage false ct sendMsg l0 events = ([], .error .connectionClosed, l0) :=
  rfl

/-- C7: on an open transport, awaitNextMessage registers the one-shot frame
listener and the close and error listeners, and starts the connect-timeout
race, all strictly before the optional payload is sent; and on every
resolution path (whatever the events) each of the three listeners is
deregistered exactly once. -/
theorem awaitNextMessage_order_and_cleanup (ct : Nat) (b : Bytes)
    (sendMsg : Option Bytes) (l0 : Listeners) (events : List SockEvent) :
    (∃ pre post,
      (awaitNextMessage true ct (some b) l0 events).1 = pre ++ [Action.sendRaw b] ++ post ∧
      Action.register .frame .onOpen ∈ pre ∧
      Action.register .close .onClose ∈ pre ∧
      Action.register .error .onClose ∈ pre ∧
      Action.startTimer ct ∈ pre) ∧
    ((awaitNextMessage true ct sendMsg l0 events).1.count (Action.deregister .frame .onOpen) = 1 ∧
     (awaitNextMessage true ct sendMsg l0 events).1.count (Action.deregister .close .onClose) = 1 ∧
     (awaitNextMessage true ct sendMsg l0 events).1.count (Action.deregister .error .onClose) = 1) := by
  constructor
  · refine ⟨[Action.register .frame .onOpen, Action.register .close .onClose,
      Action.register .error .onClose, Action.startTimer ct],
      [Action.deregister .frame .onOpen, Action.deregister .close .onClose,
        Action.deregister .error .onClose], rfl, ?_, ?_, ?_, ?_⟩ <;> simp
  · cases sendMsg <;> simp [awaitNextMessage, List.count_cons, List.count_append]

/-! ### Helper lemmas on attribute lists -/

theorem find_map_replace (l : List (String × String)) (k v : String)
    (h : l.any (fun p => p.1 == k) = true) :
    (l.map (fun p => if p.1 == k then (k, v) else p)).find? (fun p => p.1 == k)
      = some (k, v) := by
  induction l with
  | nil => simp at h
  | cons p rest ih =>
    rw [List.map_cons]
    by_cases hp : p.1 = k
    · have hb : (p.1 == k) = true := beq_iff_eq.mpr hp
      rw [if_pos hb]
      exact List.find?_cons_of_pos _ (beq_iff_eq.mpr rfl)
    · have hb : (p.1 == k) = false := by
        cases hb2 : p.1 == k
        · rfl
        · exact absurd (beq_iff_eq.mp hb2) hp
      have h2 : rest.any (fun p => p.1 == k) = true := by
        rw [List.any_cons, hb, Bool.false_or] at h
        exact h
      rw [if_neg (by rw [hb]; exact Bool.false_ne_true)]
      rw [List.find?_cons_of_neg _ (by rw [hb]; exact Bool.false_ne_true)]
      exact ih h2

theorem find_append_absent (l : List (String × String)) (k v : String)
    (h : l.any (fun p => p.1 == k) = false) :
    (l ++ [(k, v)]).find? (fun p => p.1 == k) = some (k, v) := by
  induction l with
  | nil =>
    rw [List.nil_append]
    exact List.find?_cons_of_pos _ (beq_iff_eq.mpr rfl)
  | cons p rest ih =>
    rw [List.any_cons, Bool.or_eq_false_iff] at h
    rw [List.cons_append]
    rw [List.find?_cons_of_neg _ (by rw [h.1]; exact Bool.false_ne_true)]
    exact ih h.2

theorem find_map_replace_other (l : List (String × String)) (k k2 v : String)
    (hk : k2 ≠ k) :
    (l.map (fun p => if p.1 == k then (k, v) else p)).find? (fun p => p.1 == k2)
      = l.find? (fun p => p.1 == k2) := by
  have hkk : (k == k2) = false := by
    cases hb : k == k2
    · rfl
    · exact absurd (beq_iff_eq.mp hb).symm hk
  induction l with
  | nil => rfl
  | cons p rest ih =>
    rw [List.map_cons]
    by_cases hp : p.1 = k
    · have hb : (p.1 == k) = true := beq_iff_eq.mpr hp
      have hpb : (p.1 == k2) = false := by rw [hp]; exact hkk
      rw [if_pos hb]
      rw [List.find?_cons_of_neg _ (by show ¬((k == k2) = true); rw [hkk]; exact Bool.false_ne_true)]
      rw [List.find?_cons_of_neg _ (by rw [hpb]; exact Bool.false_ne_true)]
      exact ih
    · have hb : (p.1 == k) = false := by
        cases hb2 : p.1 == k
        · rfl
        · exact absurd (beq_iff_eq.mp hb2) hp
      rw [if_neg (by rw [hb]; exact Bool.false_ne_true)]
      cases hp2 : p.1 == k2
      · rw [List.find?_cons_of_neg _ (by rw [hp2]; exact Bool.false_ne_true)]
        rw [List.find?_cons_of_neg _ (by rw [hp2]; exact Bool.false_ne_true)]
        exact ih
      · simp only [List.find?_cons]
        rw [hp2]

theorem find_append_other (l : List (String × String)) (k k2 v : String)
    (hk : k2 ≠ k) :
    (l ++ [(k, v)]).find? (fun p => p.1 == k2) = l.find? (fun p => p.1 == k2) := by
  have hkk : (k == k2) = false := by
    cases hb : k == k2
    · rfl
    · exact absurd (beq_iff_eq.mp hb).symm hk
  induction l with
  | nil =>
    rw [List.nil_append]
    rw [List.find?_cons_of_neg _ (by show ¬((k == k2) = true); rw [hkk]; exact Bool.false_ne_true)]
  | cons p rest ih =>
    rw [List.cons_append]
    cases hp2 : p.1 == k2
    · rw [List.find?_cons_of_neg _ (by rw [hp2]; exact Bool.false_ne_true)]
      rw [List.find?_cons_of_neg _ (by rw [hp2]; exact Bool.false_ne_true)]
      exact ih
    · simp only [List.find?_cons]
      rw [hp2]

theorem setAttr_attrs (n : BinaryNode) (k v : String) :
    (setAttr n k v).attrs =
      (if n.attrs.any (fun p => p.1 == k) then
        n.attrs.map (fun p => if p.1 == k then (k, v) else p)
      else n.attrs ++ [(k, v)]) := rfl

theorem setAttr_tag (n : BinaryNode) (k v : String) :
    (setAttr n k v).tag = n.tag := rfl

theorem setAttr_children (n : BinaryNode) (k v : String) :
    (setAttr n k v).children = n.children := rfl

theorem getAttr_setAttr_same (n : BinaryNode) (k v : String) :
    getAttr (setAttr n k v) k = some v := by
  show ((setAttr n k v).attrs.find? (fun p => p.1 == k)).map (fun p => p.2) = some v
  rw [setAttr_attrs]
  by_cases h : n.attrs.any (fun p => p.1 == k) = true
  · rw [if_pos h, find_map_replace n.attrs k v h]
    rfl
  · have hf : n.attrs.any (fun p => p.1 == k) = false := by
      cases hb : n.attrs.any (fun p => p.1 == k)
      · rfl
      · exact absurd hb h
    rw [if_neg h, find_append_absent n.attrs k v hf]
    rfl

theorem getAttr_setAttr_other (n : BinaryNode) (k k2 v : String) (hk : k2 ≠ k) :
    getAttr (setAttr n k v) k2 = getAttr n k2 := by
  show ((setAttr n k v).attrs.find? (fun p => p.1 == k2)).map (fun p => p.2)
    = (n.attrs.find? (fun p => p.1 == k2)).map (fun p => p.2)
  rw [setAttr_attrs]
  by_cases h : n.attrs.any (fun p => p.1 == k) = true
  · rw [if_pos h, find_map_replace_other n.attrs k k2 v hk]
  · rw [if_neg h, find_append_other n.attrs k k2 v hk]

/-- The node object the caller observes after query: unchanged when its id
attribute was truthy, otherwise the same node with the fresh tag written into
its id attribute — independently of the send and wait outcomes. -/
theorem query_returned_node (node : BinaryNode) (freshTag : String) (t : Nat)
    (so : Except SockError Unit) (wr : Except SockError WaitResult) :
    (query node freshTag t so wr).2.2 =
      if truthyAttr (getAttr node "id") then node else setAttr node "id" freshTag := by
  unfold query
  cases so with
  | error e => rfl
  | ok u =>
    cases wr with
    | error e => rfl
    | ok r =>
      cases r with
      | rawRes b => rfl
      | nodeRes n => cases hA : assertNodeErrorFree n <;> simp [hA]

/-- The actions query performs, in program order: begin the tag wait, then
send the node — independently of the send and wait outcomes. -/
theorem query_trace (node : BinaryNode) (freshTag : String) (t : Nat)
    (so : Except SockError Unit) (wr : Except SockError WaitResult) :
    (query node freshTag t so wr).1 =
      (let node2 := if truthyAttr (getAttr node "id") then node
        else setAttr node "id" freshTag
       [QAction.beginWait ((getAttr node2 "id").getD "") t,
        QAction.sendNodeAct node2]) := by
  unfold query
  cases so with
  | error e => rfl
  | ok u =>
    cases wr with
    | error e => rfl
    | ok r =>
      cases r with
      | rawRes b => rfl
      | nodeRes n => cases hA : assertNodeErrorFree n <;> simp [hA]

/-- C2: for a node with no id attribute, query assigns the freshly generated
tag, begins the tag wait (keyed by that tag, with the given timeout) strictly
before sending the node, awaits the result, and when the resolved value is a
tree node runs the codec error-assertion on it: an error-flagged node makes
the call fail with the ProtocolError carrying the error details instead of
returning it as success, while an error-free node is returned as success. -/
theorem query_follows_protocol (node : BinaryNode) (freshTag : String) (t : Nat)
    (so : Except SockError Unit) (wr : Except SockError WaitResult)
    (n : BinaryNode)
    (h : truthyAttr (getAttr node "id") = false) :
    (query node freshTag t so wr).1 =
      [QAction.beginWait freshTag t,
       QAction.sendNodeAct (setAttr node "id" freshTag)] ∧
    (so = .ok () → wr = .ok (.nodeRes n) →
      (∀ e, assertNodeErrorFree n = .error e →
        (query node freshTag t so wr).2.1 = .error e) ∧
      (assertNodeErrorFree n = .ok () →
        (query node freshTag t so wr).2.1 = .ok (.nodeRes n))) := by
  constructor
  · rw [query_trace, h]
    simp only [Bool.false_eq_true, if_neg, ite_false]
    rw [getAttr_setAttr_same]
    rfl
  · intro hso hwr
    subst hso
    subst hwr
    constructor
    · intro e hA
      simp [query, hA]
    · intro hA
      simp [query, hA]

/-- Witness for query_follows_protocol: a concrete query whose response node
carries an error child fails with the ProtocolError holding the details. -/
theorem query_follows_protocol_witness :
    (query (BinaryNode.node "iq" [] []) "w-2" 5 (Except.ok ())
        (Except.ok (WaitResult.nodeRes (BinaryNode.node "ib" []
          [BinaryNode.node "error" [("code", "503")] []])))).2.1
      = Except.error (SockError.protocolError "error" [("code", "503")]) :=
  (((query_follows_protocol (BinaryNode.node "iq" [] []) "w-2" 5 (Except.ok ())
      (Except.ok (WaitResult.nodeRes (BinaryNode.node "ib" []
        [BinaryNode.node "error" [("code", "503")] []])))
      (BinaryNode.node "ib" [] [BinaryNode.node "error" [("code", "503")] []])
      rfl).2 rfl rfl).1
    (SockError.protocolError "error" [("code", "503")]) rfl)

/-- C10: when the passed node has no (truthy) id attribute, query writes the
fresh tag into the id attribute of the caller's node object; whether the call
succeeds or fails, the node the caller holds afterwards carries that tag, and
its tag name, children and all other attributes are unchanged. -/
theorem query_mutates_only_id (node : BinaryNode) (freshTag : String) (t : Nat)
    (so : Except SockError Unit) (wr : Except SockError WaitResult)
    (h : truthyAttr (getAttr node "id") = false) :
    getAttr (query node freshTag t so wr).2.2 "id" = some freshTag ∧
    (∀ k, k ≠ "id" → getAttr (query node freshTag t so wr).2.2 k = getAttr node k) ∧
    (query node freshTag t so wr).2.2.tag = node.tag ∧
    (query node freshTag t so wr).2.2.children = node.children := by
  have hnode : (query node freshTag t so wr).2.2 = setAttr node "id" freshTag := by
    rw [query_returned_node, h]
    exact if_neg Bool.false_ne_true
  rw [hnode]
  exact ⟨getAttr_setAttr_same node "id" freshTag,
    fun k hk => getAttr_setAttr_other node "id" k freshTag hk,
    setAttr_tag node "id" freshTag,
    setAttr_children node "id" freshTag⟩

/-- Witness for query_mutates_only_id: a concrete failing query still leaves
the fresh tag in the id attribute and the other attribute untouched. -/
theorem query_mutates_only_id_witness :
    getAttr (query (BinaryNode.node "iq" [("to", "server")] []) "w-3" 5
        (Except.error SockError.connectionClosed)
        (Except.error SockError.timedOut)).2.2 "id" = some "w-3" ∧
    getAttr (query (BinaryNode.node "iq" [("to", "server")] []) "w-3" 5
        (Except.error SockError.connectionClosed)
        (Except.error SockError.timedOut)).2.2 "to" = some "server" :=
  ⟨(query_mutates_only_id (BinaryNode.node "iq" [("to", "server")] []) "w-3" 5
      (Except.error SockError.connectionClosed)
      (Except.error SockError.timedOut) rfl).1,
   (query_mutates_only_id (BinaryNode.node "iq" [("to", "server")] []) "w-3" 5
      (Except.error SockError.connectionClosed)
      (Except.error SockError.timedOut) rfl).2.1 "to" (by decide)⟩

/-- C4: finishInit (the steady-state commit) is never invoked before a valid
server-hello has been received, decoded and processed by the noise engine:
the trace contains finishInit only when all of those succeeded, and then the
processHandshake step precedes it. A malformed server-hello (decode failure)
or a cryptographically invalid one (processHandshake failure) is fatal to the
attempt: the error propagates to the caller, the handshake step is never
retried, and neither finishInit nor the keep-alive start happens. -/
theorem validateConnection_ordering (aw : Except SockError Bytes)
    (dec prc : Bytes → Except SockError Bytes) (snd : Except SockError Unit) :
    (HsAction.finishInitCall ∈ (validateConnection aw dec prc snd).1 →
      ∃ raw hs k, aw = .ok raw ∧ dec raw = .ok hs ∧ prc hs = .ok k ∧
        (validateConnection aw dec prc snd).1 =
          [.sendClientHello, .processHandshakeCall, .sendClientFinish,
           .finishInitCall, .startKeepAliveCall]) ∧
    (∀ raw e, aw = .ok raw → dec raw = .error e →
      (validateConnection aw dec prc snd).2 = .error e ∧
      HsAction.finishInitCall ∉ (validateConnection aw dec prc snd).1 ∧
      HsAction.startKeepAliveCall ∉ (validateConnection aw dec prc snd).1) ∧
    (∀ raw hs e, aw = .ok raw → dec raw = .ok hs → prc hs = .error e →
      (validateConnection aw dec prc snd).2 = .error e ∧
      HsAction.finishInitCall ∉ (validateConnection aw dec prc snd).1 ∧
      HsAction.startKeepAliveCall ∉ (validateConnection aw dec prc snd).1) ∧
    (validateConnection aw dec prc snd).1.count HsAction.processHandshakeCall ≤ 1 := by
  rcases aw with e0 | raw0
  · have hv1 : (validateConnection (Except.error e0) dec prc snd).1
        = [HsAction.sendClientHello] := rfl
    rw [hv1]
    refine ⟨fun hmem => absurd hmem (by decide),
      fun raw e h1 _ => ?_, fun raw hs e h1 _ _ => ?_, by decide⟩
    · cases h1
    · cases h1
  · cases hdec : dec raw0 with
    | error e1 =>
      have hv1 : (validateConnection (Except.ok raw0) dec prc snd).1
          = [HsAction.sendClientHello] := by
        simp only [validateConnection, hdec]
      have hv2 : (validateConnection (Except.ok raw0) dec prc snd).2
          = Except.error e1 := by
        simp only [validateConnection, hdec]
      rw [hv1, hv2]
      refine ⟨fun hmem => absurd hmem (by decide), ?_, ?_, by decide⟩
      · intro raw e h1 h2
        injection h1 with h1e
        subst h1e
        rw [hdec] at h2
        injection h2 with h2e
        subst h2e
        exact ⟨rfl, by decide, by decide⟩
      · intro raw hs e h1 h2 h3
        injection h1 with h1e
        subst h1e
        rw [hdec] at h2
        cases h2
    | ok hs0 =>
      cases hprc : prc hs0 with
      | error e2 =>
        have hv1 : (validateConnection (Except.ok raw0) dec prc snd).1
            = [HsAction.sendClientHello, HsAction.processHandshakeCall] := by
          simp only [validateConnection, hdec, hprc]
        have hv2 : (validateConnection (Except.ok raw0) dec prc snd).2
            = Except.error e2 := by
          simp only [validateConnection, hdec, hprc]
        rw [hv1, hv2]
        refine ⟨fun hmem => absurd hmem (by decide), ?_, ?_, by decide⟩
        · intro raw e h1 h2
          injection h1 with h1e
          subst h1e
          rw [hdec] at h2
          cases h2
        · intro raw hs e h1 h2 h3
          injection h1 with h1e
          subst h1e
          rw [hdec] at h2
          injection h2 with h2e
          subst h2e
          rw [hprc] at h3
          injection h3 with h3e
          subst h3e
          exact ⟨rfl, by decide, by decide⟩
      | ok k0 =>
        cases snd with
        | error e3 =>
          have hv1 : (validateConnection (Except.ok raw0) dec prc (Except.error e3)).1
              = [HsAction.sendClientHello, HsAction.processHandshakeCall,
                 HsAction.sendClientFinish] := by
            simp only [validateConnection, hdec, hprc]
          have hv2 : (validateConnection (Except.ok raw0) dec prc (Except.error e3)).2
              = Except.error e3 := by
            simp only [validateConnection, hdec, hprc]
          rw [hv1, hv2]
          refine ⟨fun hmem => absurd hmem (by decide), ?_, ?_, by decide⟩
          · intro raw e h1 h2
            injection h1 with h1e
            subst h1e
            rw [hdec] at h2
            cases h2
          · intro raw hs e h1 h2 h3
            injection h1 with h1e
            subst h1e
            rw [hdec] at h2
            injection h2 with h2e
            subst h2e
            rw [hprc] at h3
            cases h3
        | ok u =>
          have hv1 : (validateConnection (Except.ok raw0) dec prc (Except.ok u)).1
              = [HsAction.sendClientHello, HsAction.processHandshakeCall,
                 HsAction.sendClientFinish, HsAction.finishInitCall,
                 HsAction.startKeepAliveCall] := by
            simp only [validateConnection, hdec, hprc]
          have hv2 : (validateConnection (Except.ok raw0) dec prc (Except.ok u)).2
              = Except.ok () := by
            simp only [validateConnection, hdec, hprc]
          rw [hv1, hv2]
          refine ⟨fun _ => ⟨raw0, hs0, k0, rfl, hdec, hprc, rfl⟩, ?_, ?_, by decide⟩
          · intro raw e h1 h2
            injection h1 with h1e
            subst h1e
            rw [hdec] at h2
            cases h2
          · intro raw hs e h1 h2 h3
            injection h1 with h1e
            subst h1e
            rw [hdec] at h2
            injection h2 with h2e
            subst h2e
            rw [hprc] at h3
            cases h3

/-- Witness for validateConnection_ordering: a decoder that always rejects
the server-hello makes the concrete handshake attempt fail with that error
and leaves finishInit uninvoked. -/
theorem validateConnection_ordering_witness :
    (validateConnection (Except.ok [1])
        (fun _ => Except.error (SockError.handshakeFailure 9))
        (fun b => Except.ok b) (Except.ok ())).2
      = Except.error (SockError.handshakeFailure 9) ∧
    HsAction.finishInitCall ∉ (validateConnection (Except.ok [1])
        (fun _ => Except.error (SockError.handshakeFailure 9))
        (fun b => Except.ok b) (Except.ok ())).1 :=
  have h := (validateConnection_ordering (Except.ok [1])
      (fun _ => Except.error (SockError.handshakeFailure 9))
      (fun b => Except.ok b) (Except.ok ())).2.1 [1]
      (SockError.handshakeFailure 9) rfl rfl
  ⟨h.1, h.2.1⟩

/-- C6: the keep-alive timer the source starts has the literal period 30000,
which differs from a configured keep-alive interval of 10000; each tick
passes the string "keepalive" plus an ignored extra argument to the
single-parameter sendNode; and a tick whose send fails logs no error and
lets the failure escape unhandled instead of logging it. -/
theorem keepAlive_period_and_tick_bug :
    startKeepAliveRequest.periodMs = 30000 ∧
    startKeepAliveRequest.periodMs ≠ 10000 ∧
    (keepAliveTick (Except.error SockError.connectionClosed)).errorLogged = false ∧
    (keepAliveTick (Except.error SockError.connectionClosed)).escalated = true ∧
    (keepAliveTick (Except.error SockError.connectionClosed)).extraArgIgnored = true :=
  ⟨rfl, by decide, rfl, rfl, rfl⟩

/-! ### Decimal rendering and tag uniqueness -/

theorem digitChar_inj_lt :
    ∀ a < 10, ∀ b < 10, Nat.digitChar a = Nat.digitChar b → a = b := by
  decide

theorem decimalDigits_lt (n : Nat) (h : n < 10) :
    decimalDigits n = [Nat.digitChar n] := by
  unfold decimalDigits
  rw [dif_pos h]

theorem decimalDigits_ge (n : Nat) (h : ¬ n < 10) :
    decimalDigits n = decimalDigits (n / 10) ++ [Nat.digitChar (n % 10)] := by
  conv_lhs => unfold decimalDigits
  rw [dif_neg h]

theorem decimalDigits_ne_nil (n : Nat) : decimalDigits n ≠ [] := by
  by_cases h : n < 10
  · rw [decimalDigits_lt n h]
    exact List.cons_ne_nil _ _
  · rw [decimalDigits_ge n h]
    simp

theorem decimalDigits_inj : ∀ m n : Nat, decimalDigits m = decimalDigits n → m = n := by
  intro m
  induction m using Nat.strong_induction_on with
  | _ m ih =>
    intro n h
    by_cases hm : m < 10
    · by_cases hn : n < 10
      · rw [decimalDigits_lt m hm, decimalDigits_lt n hn] at h
        injection h with h1 _
        exact digitChar_inj_lt m hm n hn h1
      · exfalso
        rw [decimalDigits_lt m hm, decimalDigits_ge n hn] at h
        have hlen := congrArg List.length h
        simp only [List.length_cons, List.length_nil, List.length_append] at hlen
        exact decimalDigits_ne_nil (n / 10) (List.length_eq_zero.mp (by omega))
    · by_cases hn : n < 10
      · exfalso
        rw [decimalDigits_ge m hm, decimalDigits_lt n hn] at h
        have hlen := congrArg List.length h
        simp only [List.length_cons, List.length_nil, List.length_append] at hlen
        exact decimalDigits_ne_nil (m / 10) (List.length_eq_zero.mp (by omega))
      · rw [decimalDigits_ge m hm, decimalDigits_ge n hn] at h
        have hlen := congrArg List.length h
        simp only [List.length_append, List.length_cons, List.length_nil] at hlen
        have hparts := List.append_inj h (by omega)
        have hdiv : m / 10 = n / 10 :=
          ih (m / 10) (Nat.div_lt_self (by omega) (by omega)) (n / 10) hparts.1
        have hmodc : Nat.digitChar (m % 10) = Nat.digitChar (n % 10) := by
          have := hparts.2
          injection this with h1 _
        have hmod : m % 10 = n % 10 :=
          digitChar_inj_lt (m % 10) (Nat.mod_lt m (by omega)) (n % 10)
            (Nat.mod_lt n (by omega)) hmodc
        omega

theorem string_data_append (u s : String) : (u ++ s).data = u.data ++ s.data := by
  cases u
  cases s
  rfl

theorem string_append_cancel_left (u s t : String) (h : u ++ s = u ++ t) : s = t := by
  have hd := congrArg String.data h
  rw [string_data_append, string_data_append] at hd
  have hst := List.append_cancel_left hd
  cases s
  cases t
  exact congrArg String.mk hst

theorem decimalRepr_inj (m n : Nat) (h : decimalRepr m = decimalRepr n) : m = n :=
  decimalDigits_inj m n (congrArg String.data h)

theorem generateTags_eq (uq : String) : ∀ n e : Nat,
    generateTags uq n e = (List.range n).map (fun i => uq ++ decimalRepr (e + i)) := by
  intro n
  induction n with
  | zero => intro e; rfl
  | succ n ih =>
    intro e
    rw [generateTags]
    simp only [generateMessageTag]
    rw [List.range_succ_eq_map, List.map_cons, ih (e + 1), List.map_map]
    refine congrArg₂ List.cons (by rw [Nat.add_zero]) ?_
    refine List.map_congr_left (fun a _ => ?_)
    simp only [Function.comp]
    have harg : ∀ x y : Nat, x = y → uq ++ decimalRepr x = uq ++ decimalRepr y :=
      fun x y hxy => by rw [hxy]
    exact harg _ _ (by omega)

/-- C3: the N tags issued sequentially by one orchestrator instance are
exactly the session id followed by the decimal counter values 1, 2, ..., N —
the counter starts at 1, increases by exactly 1 per tag and is never reused
or reset — and the N tags are pairwise distinct. -/
theorem sessionTags_spec (uq : String) (n : Nat) :
    sessionTags uq n = (List.range n).map (fun i => uq ++ decimalRepr (i + 1)) ∧
    (sessionTags uq n).Nodup := by
  have he : sessionTags uq n = (List.range n).map (fun i => uq ++ decimalRepr (i + 1)) := by
    rw [sessionTags, generateTags_eq]
    exact List.map_congr_left (fun a _ => by rw [Nat.add_comm])
  refine ⟨he, ?_⟩
  rw [he]
  refine List.Nodup.map ?_ (List.nodup_range n)
  intro a b hab
  have hr := decimalRepr_inj (a + 1) (b + 1) (string_append_cancel_left uq _ _ hab)
  omega

/-! ### Transport selection -/

/-- C8 counterexample: with mobile=false and a tcp:-scheme endpoint, the
connect target is NOT rewritten to the fixed mobile gateway host/port: the
originally configured endpoint is kept verbatim (only mobile mode is
forced), although the gateway host differs from the configured one. -/
theorem makeSocketTarget_tcp_not_rewritten :
    (makeSocketTarget false
        { protocol := "tcp:", host := "example.com", port := "1234", searchParams := [] }
        none false "gw.example" "443").1
      = { protocol := "tcp:", host := "example.com", port := "1234", searchParams := [] } ∧
    ("example.com" : String) ≠ "gw.example" :=
  ⟨rfl, by decide⟩

/-- C8 amended: with mobile=false and a wss: endpoint carrying a routing
hint, the hint is appended base64url-encoded as the ED query parameter and a
WebSocket transport is constructed; with mobile=true and a non-tcp endpoint,
the target is rewritten to the fixed mobile gateway host/port regardless of
the configured endpoint and a raw-stream transport is constructed; with a
tcp:-scheme endpoint, mobile mode is forced, the configured endpoint is kept
as the target, and a raw-stream transport is constructed. -/
theorem makeSocketTarget_spec (mobileFlag : Bool) (u : URLm) (ri : List Nat)
    (riOpt : Option (List Nat)) (me mp : String) :
    (u.protocol = "wss:" →
      (makeSocketTarget false u (some ri) false me mp).1.searchParams
        = u.searchParams ++ [("ED", base64urlStr ri)] ∧
      (makeSocketTarget false u (some ri) false me mp).2.2
        = TransportKind.webSocketClient) ∧
    (u.protocol ≠ "tcp:" →
      (makeSocketTarget true u riOpt false me mp).1
        = { protocol := "tcp:", host := me, port := mp, searchParams := [] } ∧
      (makeSocketTarget true u riOpt false me mp).2.2
        = TransportKind.mobileSocketClient) ∧
    (u.protocol = "tcp:" →
      (makeSocketTarget mobileFlag u riOpt false me mp).1 = u ∧
      (makeSocketTarget mobileFlag u riOpt false me mp).2.1 = true ∧
      (makeSocketTarget mobileFlag u riOpt false me mp).2.2
        = TransportKind.mobileSocketClient) := by
  refine ⟨?_, ?_, ?_⟩
  · intro h
    have h1 : (u.protocol == "tcp:") = false := by rw [h]; decide
    have h2 : (u.protocol == "wss:") = true := by rw [h]; decide
    constructor
    · simp [makeSocketTarget, h1, h2]
    · simp [makeSocketTarget, h1, h2]
  · intro h
    have h1 : (u.protocol == "tcp:") = false := beq_eq_false_iff_ne.mpr h
    cases riOpt with
    | some ri2 => exact ⟨by simp [makeSocketTarget, h1], by simp [makeSocketTarget, h1]⟩
    | none => exact ⟨by simp [makeSocketTarget, h1], by simp [makeSocketTarget, h1]⟩
  · intro h
    have h1 : (u.protocol == "tcp:") = true := by rw [h]; decide
    cases riOpt with
    | some ri2 =>
      exact ⟨by simp [makeSocketTarget, h1], by simp [makeSocketTarget, h1],
        by simp [makeSocketTarget, h1]⟩
    | none =>
      exact ⟨by simp [makeSocketTarget, h1], by simp [makeSocketTarget, h1],
        by simp [makeSocketTarget, h1]⟩

/-- Witness for makeSocketTarget_spec at concrete inputs: the wss: branch
appends the encoded hint, and the mobile branch rewrites to the gateway. -/
theorem makeSocketTarget_spec_witness :
    (makeSocketTarget false
        { protocol := "wss:", host := "web.example", port := "", searchParams := [] }
        (some [1, 2, 3]) false "gw.example" "443").1.searchParams
      = [("ED", base64urlStr [1, 2, 3])] ∧
    (makeSocketTarget true
        { protocol := "wss:", host := "web.example", port := "", searchParams := [] }
        none false "gw.example" "443").1
      = { protocol := "tcp:", host := "gw.example", port := "443", searchParams := [] } := by
  constructor
  · have h := ((makeSocketTarget_spec false
        { protocol := "wss:", host := "web.example", port := "", searchParams := [] }
        [1, 2, 3] none "gw.example" "443").1 rfl).1
    simpa using h
  · exact ((makeSocketTarget_spec false
        { protocol := "wss:", host := "web.example", port := "", searchParams := [] }
        [1, 2, 3] none "gw.example" "443").2.1 (by decide)).1

end Bail
